import Mathlib

/-!
Verification of the humane-searcher query compiler and response orchestrator
(`src/Searcher.js`).  Scores and weights are embedded as rationals (JS numbers
with exact arithmetic), hit lists as Lean lists, and the imperative `forEach`
loops with mutable accumulators as explicit folds.  Definitions follow the
source; separately named `...Spec` / `...Claimed` definitions transcribe the
natural-language description they are compared against.
-/

namespace HumaneSearcher

/-! ## Relevancy cliff filter (`_processResponse`, hit loop)

JS source:
```
let previousScore = null;
_.forEach(response.hits.hits, (hit) => {
    const hitOut = this._processSource(hit);
    if (previousScore == null || (hitOut._score * 1.0) / previousScore > 0.40) {
        results.push(hitOut);
        previousScore = hitOut._score;
    }
});
```
Hits are represented by their `_score`.  IEEE division by a zero
`previousScore` yields `Infinity` (score positive) or `NaN`/`-Infinity`
(score zero or negative), so the `> 0.40` test at a zero reference score
succeeds exactly when the score is positive; `cliffKeep` encodes that case
explicitly because rational division by zero is `0` in Lean. -/

def cliffKeep (previousScore : Option ℚ) (score : ℚ) : Bool :=
  match previousScore with
  | none => true
  | some p => if p = 0 then decide (0 < score) else decide (score / p > 40 / 100)

/-- One iteration of the hit loop: state is (pushed results, previous kept score). -/
def cliffStep (st : List ℚ × Option ℚ) (score : ℚ) : List ℚ × Option ℚ :=
  if cliffKeep st.2 score then (st.1 ++ [score], some score) else st

/-- The relevancy cliff filter over the ordered hit scores, as the source loop runs it. -/
def relevancyCliffFilter (scores : List ℚ) : List ℚ :=
  (scores.foldl cliffStep ([], none)).1

/-- Transcribed from the claim: given the previous *kept* score, keep a
subsequent hit exactly when its ratio to that score exceeds 0.40, updating the
reference score only on keep, never on drop. -/
def cliffSpecAux (prevKept : ℚ) : List ℚ → List ℚ
  | [] => []
  | s :: rest =>
      if s / prevKept > 40 / 100 then s :: cliffSpecAux s rest else cliffSpecAux prevKept rest

/-- Transcribed from the claim: the first hit is always kept and becomes the
initial reference score. -/
def cliffSpec : List ℚ → List ℚ
  | [] => []
  | s :: rest => s :: cliffSpecAux s rest

lemma cliffFold_eq_spec_aux (rest : List ℚ) :
    ∀ (acc : List ℚ) (p : ℚ), p ≠ 0 →
      (rest.foldl cliffStep (acc, some p)).1 = acc ++ cliffSpecAux p rest := by
  induction rest with
  | nil => intro acc p _; simp [cliffSpecAux]
  | cons s t ih =>
      intro acc p hp
      by_cases hratio : s / p > 40 / 100
      · have hkeep : cliffKeep (some p) s = true := by
          simp [cliffKeep, hp, hratio]
        by_cases hs : s = 0
        · exfalso
          rw [hs] at hratio
          simp at hratio
          linarith
        · simp only [List.foldl_cons, cliffStep, hkeep, if_true]
          rw [ih (acc ++ [s]) s hs]
          simp [cliffSpecAux, hratio]
      · have hdrop : cliffKeep (some p) s = false := by
          simp [cliffKeep, hp, hratio]
        simp only [List.foldl_cons, cliffStep, hdrop]
        rw [if_neg (by simp [hdrop]), ih acc p hp]
        simp [cliffSpecAux, hratio]

/-- Claim C1: the relevancy cliff filter keeps the first hit and each
subsequent hit exactly when the ratio of its score to the immediately
preceding kept score exceeds 0.40, the reference score being updated only on
keep (for every list of nonzero hit scores the loop agrees with that
description), and on scores `[100, 90, 30, 28]` the kept set is `[100, 90]`. -/
theorem cliff_filter_keeps_by_ratio_to_previous_kept :
    (∀ scores : List ℚ, (∀ x ∈ scores, x ≠ 0) →
      relevancyCliffFilter scores = cliffSpec scores) ∧
    relevancyCliffFilter [100, 90, 30, 28] = [100, 90] := by
  constructor
  · intro scores hpos
    match scores with
    | [] => rfl
    | s :: rest =>
        have hs : s ≠ 0 := hpos s (by simp)
        have hkeep : cliffKeep none s = true := rfl
        show (List.foldl cliffStep ([], none) (s :: rest)).1 = cliffSpec (s :: rest)
        simp only [List.foldl_cons, cliffStep, hkeep, if_true, List.nil_append]
        rw [cliffFold_eq_spec_aux rest [s] s hs]
        simp [cliffSpec]
  · norm_num [relevancyCliffFilter, cliffStep, cliffKeep, List.foldl]

/-- Witness for Claim C1: the general part applied at the concrete score list
`[100, 90, 30, 28]`, whose entries are nonzero. -/
theorem cliff_filter_keeps_by_ratio_to_previous_kept_witness :
    relevancyCliffFilter [100, 90, 30, 28] = cliffSpec [100, 90, 30, 28] :=
  cliff_filter_keeps_by_ratio_to_previous_kept.1 [100, 90, 30, 28] (by norm_num)

/-! ## Relevancy-deflection ranker (`suggestedQueries`, multi-response branch)

JS source (on a `multi` response):
```
result._relevancyScore = result._score / (result._weight || 1.0);
relevancyScores.sort((scoreA, scoreB) => scoreB - scoreA);
let previousScore = 0;
let deflectionScore = 0;
_.forEach(relevancyScores, (score) => {
    if (previousScore && score < 0.5 * previousScore) {
        deflectionScore = previousScore; return false;
    }
    previousScore = score;
    return true;
});
... if (result._relevancyScore >= deflectionScore) results.push(result);
results.sort((resultA, resultB) => resultB._score - resultA._score);
```
A hit is its `_id`, `_score` and optional `_weight`; the JS numeric sorts are
stable, embedded as `insertionSort` on the descending order. -/

structure SHit where
  id : Nat
  score : ℚ
  weight : Option ℚ
deriving DecidableEq, Repr

/-- `result._weight || 1.0`: an absent (or zero, hence falsy) weight divides by 1. -/
def effectiveWeight : Option ℚ → ℚ
  | none => 1
  | some w => if w = 0 then 1 else w

def relevancyScore (h : SHit) : ℚ :=
  h.score / effectiveWeight h.weight

def sortScoresDesc (l : List ℚ) : List ℚ :=
  l.insertionSort (fun a b => b ≤ a)

def sortHitsByScoreDesc (l : List SHit) : List SHit :=
  l.insertionSort (fun a b => b.score ≤ a.score)

/-- The deflection scan as the source runs it: `previousScore` starts at the
sentinel `0` (so the guard `previousScore && ...` skips the first element),
stops at the first score strictly below half the previous one, and yields `0`
when the walk completes without deflecting. -/
def deflectionGo : List ℚ → ℚ → ℚ
  | [], _ => 0
  | s :: rest, prev => if prev ≠ 0 ∧ s < (1 / 2) * prev then prev else deflectionGo rest s

def deflectionScoreOf (l : List ℚ) : ℚ :=
  deflectionGo l 0

/-- The merged-response ranker of `suggestedQueries`: relevancy scores over the
flattened groups, sorted descending, scanned for the deflection point; hits at
or above the deflection score are kept and re-sorted by raw score. -/
def suggestedQueriesRank (groups : List (List SHit)) : List SHit :=
  sortHitsByScoreDesc
    (groups.flatten.filter (fun h =>
      deflectionScoreOf (sortScoresDesc (groups.flatten.map relevancyScore)) ≤
        relevancyScore h))

/-- Transcribed from the claim: walk the sorted scores tracking the previous
one; the first time a score falls to at most 50% of the previous score, that
previous score is the deflection threshold (`none` when no deflection point
exists). -/
def claimedDeflectionGo : Option ℚ → List ℚ → Option ℚ
  | _, [] => none
  | none, s :: rest => claimedDeflectionGo (some s) rest
  | some p, s :: rest => if s ≤ (1 / 2) * p then some p else claimedDeflectionGo (some s) rest

/-- The ranker exactly as the claim states it (trigger at ratio `≤ 0.5`):
keep the hits whose relevancy score reaches the threshold, everything when no
deflection point exists, re-sorted by raw score descending. -/
def rankerClaimed (groups : List (List SHit)) : List SHit :=
  match claimedDeflectionGo none (sortScoresDesc (groups.flatten.map relevancyScore)) with
  | none => sortHitsByScoreDesc groups.flatten
  | some t => sortHitsByScoreDesc (groups.flatten.filter (fun h => t ≤ relevancyScore h))

/-- The claim amended at the boundary: deflection triggers only when a score
falls strictly below 50% of the previous score. -/
def amendedDeflectionGo : Option ℚ → List ℚ → Option ℚ
  | _, [] => none
  | none, s :: rest => amendedDeflectionGo (some s) rest
  | some p, s :: rest => if s < (1 / 2) * p then some p else amendedDeflectionGo (some s) rest

/-- The ranker as the amended claim states it. -/
def rankerAmended (groups : List (List SHit)) : List SHit :=
  match amendedDeflectionGo none (sortScoresDesc (groups.flatten.map relevancyScore)) with
  | none => sortHitsByScoreDesc groups.flatten
  | some t => sortHitsByScoreDesc (groups.flatten.filter (fun h => t ≤ relevancyScore h))

lemma deflectionGo_eq_amended (l : List ℚ) :
    ∀ p : ℚ, 0 < p → (∀ x ∈ l, 0 < x) →
      deflectionGo l p = (amendedDeflectionGo (some p) l).getD 0 := by
  induction l with
  | nil => intro p _ _; rfl
  | cons s rest ih =>
      intro p hp hl
      have hp0 : p ≠ 0 := ne_of_gt hp
      have hs : 0 < s := hl s (by simp)
      rw [show deflectionGo (s :: rest) p =
            if p ≠ 0 ∧ s < (1 / 2) * p then p else deflectionGo rest s from rfl,
          show amendedDeflectionGo (some p) (s :: rest) =
            if s < (1 / 2) * p then some p else amendedDeflectionGo (some s) rest from rfl]
      by_cases hcond : s < (1 / 2) * p
      · rw [if_pos ⟨hp0, hcond⟩, if_pos hcond]; rfl
      · rw [if_neg (fun hc => hcond hc.2), if_neg hcond]
        exact ih s hs (fun x hx => hl x (by simp [hx]))

lemma deflectionScoreOf_eq_amended (l : List ℚ) (hl : ∀ x ∈ l, 0 < x) :
    deflectionScoreOf l = (amendedDeflectionGo none l).getD 0 := by
  match l with
  | [] => rfl
  | s :: rest =>
      have hs : 0 < s := hl s (by simp)
      show deflectionGo (s :: rest) 0 = (amendedDeflectionGo (some s) rest).getD 0
      rw [show deflectionGo (s :: rest) 0 =
            if (0 : ℚ) ≠ 0 ∧ s < (1 / 2) * 0 then 0 else deflectionGo rest s from rfl,
          if_neg (by simp)]
      exact deflectionGo_eq_amended rest s hs (fun x hx => hl x (by simp [hx]))

/-- Counterexample to Claim C2 as stated: on the single group with raw scores
`[10, 5]` (no weights) the boundary ratio is exactly 50%, so the claimed
`≤ 50%` trigger would deflect at threshold 10 and keep only the score-10 hit,
but the code's strict `< 0.5 *` comparison does not deflect and keeps both. -/
theorem deflection_ranker_boundary_counterexample :
    suggestedQueriesRank [[⟨0, 10, none⟩, ⟨1, 5, none⟩]] =
        [⟨0, 10, none⟩, ⟨1, 5, none⟩] ∧
      rankerClaimed [[⟨0, 10, none⟩, ⟨1, 5, none⟩]] = [⟨0, 10, none⟩] ∧
      suggestedQueriesRank [[⟨0, 10, none⟩, ⟨1, 5, none⟩]] ≠
        rankerClaimed [[⟨0, 10, none⟩, ⟨1, 5, none⟩]] := by
  refine ⟨?_, ?_, ?_⟩ <;>
    norm_num [suggestedQueriesRank, rankerClaimed, sortScoresDesc, sortHitsByScoreDesc,
      List.insertionSort, List.orderedInsert, relevancyScore, effectiveWeight,
      deflectionScoreOf, deflectionGo, claimedDeflectionGo]

/-- Claim C2 (amended: deflection triggers when a score falls strictly below
50% of the previous score, not at exactly 50%): for every merged multi-group
result set whose relevancy scores (raw score divided by the weight, 1.0 when
absent) are positive, the ranker keeps exactly the hits whose relevancy score
is at least the first pre-drop score of the descending relevancy-score walk —
all hits when no such drop exists — re-sorted by raw score descending. -/
theorem deflection_ranker_matches_amended_claim (groups : List (List SHit))
    (hpos : ∀ h ∈ groups.flatten, 0 < relevancyScore h) :
    suggestedQueriesRank groups = rankerAmended groups := by
  have hperm :
      ∀ x ∈ sortScoresDesc (groups.flatten.map relevancyScore), 0 < x := by
    intro x hx
    have hx' : x ∈ groups.flatten.map relevancyScore :=
      (List.perm_insertionSort _ _).mem_iff.mp hx
    obtain ⟨h, hmem, rfl⟩ := List.mem_map.mp hx'
    exact hpos h hmem
  unfold suggestedQueriesRank rankerAmended
  rw [deflectionScoreOf_eq_amended _ hperm]
  cases hcase : amendedDeflectionGo none (sortScoresDesc (groups.flatten.map relevancyScore)) with
  | none =>
      simp only [Option.getD_none]
      congr 1
      exact List.filter_eq_self.mpr (fun h hmem => by
        simpa using le_of_lt (hpos h hmem))
  | some t => simp only [Option.getD_some]

/-- Witness for Claim C2: the amended theorem applied to a concrete two-group
input with positive relevancy scores (10/2 = 5 and 4/1 = 4). -/
theorem deflection_ranker_matches_amended_claim_witness :
    suggestedQueriesRank [[⟨0, 10, some 2⟩], [⟨1, 4, none⟩]] =
      rankerAmended [[⟨0, 10, some 2⟩], [⟨1, 4, none⟩]] :=
  deflection_ranker_matches_amended_claim [[⟨0, 10, some 2⟩], [⟨1, 4, none⟩]]
    (by norm_num [relevancyScore, effectiveWeight])

/-! ## Response processor (`_processResponse`) and multi-type merge
(`processMultipleSearchResponse`)

`_processResponse` turns one raw backend response into a processed result:
cliff-filtered hits, `totalResults` from `hits.total` (default 0), `count`
as the number of kept results, `prevPage` present iff `input.page > 0`,
`nextPage` present iff `input.count * input.page + count < totalResults`.
Hits are carried by their scores; the page links are carried by their page
numbers (the echoed URL string is elided). -/

structure SearchInput where
  page : Nat
  count : Nat
deriving DecidableEq, Repr

structure HitsBlock where
  total : Nat
  hits : List ℚ
deriving DecidableEq, Repr

structure RawResponse where
  hits : Option HitsBlock
  took : Nat
deriving DecidableEq, Repr

structure ProcessedResult where
  type : Option String
  results : List ℚ
  queryTimeTaken : Nat
  totalResults : Nat
  count : Nat
  prevPage : Option Nat
  nextPage : Option Nat
deriving DecidableEq, Repr

def processResponse (response : RawResponse) (type : Option String)
    (input : SearchInput) : ProcessedResult :=
  let results := match response.hits with
    | some hb => relevancyCliffFilter hb.hits
    | none => []
  let totalResults := match response.hits with
    | some hb => hb.total
    | none => 0
  let count := results.length
  { type := type
    results := results
    queryTimeTaken := response.took
    totalResults := totalResults
    count := count
    prevPage := if 0 < input.page then some (input.page - 1) else none
    nextPage :=
      if input.count * input.page + count < totalResults then some (input.page + 1) else none }

/-- Claim C3: a previous-page link is present iff the requested page is
positive, and a next-page link is present iff `page*count` plus the number of
results returned in this response is strictly below `totalResults`. -/
theorem pagination_links_iff (response : RawResponse) (type : Option String)
    (input : SearchInput) :
    ((processResponse response type input).prevPage.isSome ↔ 0 < input.page) ∧
    ((processResponse response type input).nextPage.isSome ↔
      input.page * input.count + (processResponse response type input).count <
        (processResponse response type input).totalResults) := by
  constructor
  · simp only [processResponse]
    split <;> simp_all
  · simp only [processResponse]
    rw [Nat.mul_comm]
    split <;> simp_all

/-! ### Multi-type merge

JS source (`processMultipleSearchResponse`): iterate the batched responses by
index, correlate `response[i]` with `types[i]`, process each, skip results
with no type or an empty result list, and accumulate:
```
mergedResult.queryTimeTaken = Math.max(mergedResult.queryTimeTaken || 0, result.queryTimeTaken);
mergedResult.results[result.type] = result;
mergedResult.totalResults += result.totalResults;
mergedResult.count += result && result.results.length;
```
then recompute the page links over the merged totals.  The keyed `results`
object is embedded as an association list with JS-object insert-or-replace
semantics. -/

structure MergedResult where
  totalResults : Nat
  results : List (String × ProcessedResult)
  count : Nat
  queryTimeTaken : Option Nat
  prevPage : Option Nat
  nextPage : Option Nat
deriving DecidableEq, Repr

/-- JS object property assignment `obj[k] = v` on an association list:
replace in place when the key exists, append otherwise. -/
def insertKeyed : List (String × ProcessedResult) → String → ProcessedResult →
    List (String × ProcessedResult)
  | [], k, v => [(k, v)]
  | (k', v') :: rest, k, v =>
      if k' = k then (k, v) :: rest else (k', v') :: insertKeyed rest k v

/-- The merge's per-response skip test,
`if (!result || !result.type || !result.results || result.results.length === 0) return;`:
`some (type, result)` exactly when the processed result carries a type and a
non-empty result list. -/
def includeResult (types : List String) (input : SearchInput) (p : Nat × RawResponse) :
    Option (String × ProcessedResult) :=
  let result := processResponse p.2 (types.get? p.1) input
  match result.type, result.results with
  | some t, _ :: _ => some (t, result)
  | _, _ => none

def mergeStep (types : List String) (input : SearchInput) (acc : MergedResult)
    (p : Nat × RawResponse) : MergedResult :=
  match includeResult types input p with
  | some (t, result) =>
      { acc with
        totalResults := acc.totalResults + result.totalResults
        results := insertKeyed acc.results t result
        count := acc.count + result.count
        queryTimeTaken := some (Nat.max (acc.queryTimeTaken.getD 0) result.queryTimeTaken) }
  | none => acc

def processMultipleSearchResponse (responses : List RawResponse) (types : List String)
    (input : SearchInput) : MergedResult :=
  let merged := responses.enum.foldl (mergeStep types input)
    { totalResults := 0, results := [], count := 0, queryTimeTaken := none,
      prevPage := none, nextPage := none }
  { merged with
    prevPage := if 0 < input.page then some (input.page - 1) else none
    nextPage :=
      if input.count * input.page + merged.count < merged.totalResults then
        some (input.page + 1)
      else none }

/-- The (index, response) pairs whose processed result survives the merge's
skip test (a present type and a non-empty result list), with the type key the
position-correlated `types[i]`. -/
def includedPairsAux (types : List String) (input : SearchInput) :
    List (Nat × RawResponse) → List (String × ProcessedResult) :=
  List.filterMap (includeResult types input)

def includedPairs (responses : List RawResponse) (types : List String)
    (input : SearchInput) : List (String × ProcessedResult) :=
  includedPairsAux types input responses.enum

lemma includedPairsAux_cons_none (types : List String) (input : SearchInput)
    (p : Nat × RawResponse) (rest : List (Nat × RawResponse))
    (hin : includeResult types input p = none) :
    includedPairsAux types input (p :: rest) = includedPairsAux types input rest := by
  simp [includedPairsAux, List.filterMap_cons, hin]

lemma includedPairsAux_cons_some (types : List String) (input : SearchInput)
    (p : Nat × RawResponse) (q : String × ProcessedResult)
    (rest : List (Nat × RawResponse)) (hin : includeResult types input p = some q) :
    includedPairsAux types input (p :: rest) = q :: includedPairsAux types input rest := by
  simp [includedPairsAux, List.filterMap_cons, hin]

lemma merge_foldl_totalResults (types : List String) (input : SearchInput)
    (pairs : List (Nat × RawResponse)) :
    ∀ acc : MergedResult,
      (pairs.foldl (mergeStep types input) acc).totalResults =
        acc.totalResults +
          ((includedPairsAux types input pairs).map (fun q => q.2.totalResults)).sum := by
  induction pairs with
  | nil => intro acc; simp [includedPairsAux]
  | cons p rest ih =>
      intro acc
      rcases hin : includeResult types input p with _ | ⟨t, result⟩
      · rw [List.foldl_cons,
          show mergeStep types input acc p = acc by simp [mergeStep, hin],
          includedPairsAux_cons_none types input p rest hin, ih]
      · rw [List.foldl_cons, includedPairsAux_cons_some types input p (t, result) rest hin]
        simp only [mergeStep, hin]
        rw [ih]
        simp [Nat.add_assoc]

lemma merge_foldl_count (types : List String) (input : SearchInput)
    (pairs : List (Nat × RawResponse)) :
    ∀ acc : MergedResult,
      (pairs.foldl (mergeStep types input) acc).count =
        acc.count + ((includedPairsAux types input pairs).map (fun q => q.2.count)).sum := by
  induction pairs with
  | nil => intro acc; simp [includedPairsAux]
  | cons p rest ih =>
      intro acc
      rcases hin : includeResult types input p with _ | ⟨t, result⟩
      · rw [List.foldl_cons,
          show mergeStep types input acc p = acc by simp [mergeStep, hin],
          includedPairsAux_cons_none types input p rest hin, ih]
      · rw [List.foldl_cons, includedPairsAux_cons_some types input p (t, result) rest hin]
        simp only [mergeStep, hin]
        rw [ih]
        simp [Nat.add_assoc]

lemma merge_foldl_queryTimeTaken (types : List String) (input : SearchInput)
    (pairs : List (Nat × RawResponse)) :
    ∀ acc : MergedResult,
      (pairs.foldl (mergeStep types input) acc).queryTimeTaken =
        (if includedPairsAux types input pairs = [] then acc.queryTimeTaken
         else
           some ((includedPairsAux types input pairs).foldl
             (fun m q => Nat.max m q.2.queryTimeTaken) (acc.queryTimeTaken.getD 0))) := by
  induction pairs with
  | nil => intro acc; simp [includedPairsAux]
  | cons p rest ih =>
      intro acc
      rcases hin : includeResult types input p with _ | ⟨t, result⟩
      · rw [List.foldl_cons,
          show mergeStep types input acc p = acc by simp [mergeStep, hin],
          includedPairsAux_cons_none types input p rest hin, ih]
      · rw [List.foldl_cons, includedPairsAux_cons_some types input p (t, result) rest hin]
        simp only [mergeStep, hin]
        rw [ih]
        by_cases hrest : includedPairsAux types input rest = []
        · rw [if_pos hrest, hrest, if_neg (by simp)]
          simp [List.foldl]
        · rw [if_neg hrest, if_neg (by simp)]
          simp [List.foldl]

lemma merge_foldl_results (types : List String) (input : SearchInput)
    (pairs : List (Nat × RawResponse)) :
    ∀ acc : MergedResult,
      (pairs.foldl (mergeStep types input) acc).results =
        (includedPairsAux types input pairs).foldl
          (fun m q => insertKeyed m q.1 q.2) acc.results := by
  induction pairs with
  | nil => intro acc; simp [includedPairsAux]
  | cons p rest ih =>
      intro acc
      rcases hin : includeResult types input p with _ | ⟨t, result⟩
      · rw [List.foldl_cons,
          show mergeStep types input acc p = acc by simp [mergeStep, hin],
          includedPairsAux_cons_none types input p rest hin, ih]
      · rw [List.foldl_cons, includedPairsAux_cons_some types input p (t, result) rest hin]
        simp only [mergeStep, hin]
        rw [ih]
        simp [List.foldl]

lemma insertKeyed_of_not_mem (m : List (String × ProcessedResult)) (k : String)
    (v : ProcessedResult) (h : k ∉ m.map Prod.fst) : insertKeyed m k v = m ++ [(k, v)] := by
  induction m with
  | nil => rfl
  | cons q rest ih =>
      obtain ⟨k', v'⟩ := q
      simp only [List.map_cons, List.mem_cons] at h
      push_neg at h
      have hkk : ¬(k' = k) := fun hq => h.1 hq.symm
      simp only [insertKeyed, if_neg hkk]
      rw [ih h.2]
      rfl

lemma foldl_insertKeyed_eq_append (l : List (String × ProcessedResult)) :
    ∀ m : List (String × ProcessedResult), (l.map Prod.fst).Nodup →
      (∀ k ∈ l.map Prod.fst, k ∉ m.map Prod.fst) →
      l.foldl (fun m q => insertKeyed m q.1 q.2) m = m ++ l := by
  induction l with
  | nil => intro m _ _; simp
  | cons q rest ih =>
      intro m hnodup hdisj
      simp only [List.map_cons, List.nodup_cons] at hnodup
      simp only [List.foldl_cons]
      rw [insertKeyed_of_not_mem m q.1 q.2 (hdisj q.1 (by simp))]
      rw [ih (m ++ [(q.1, q.2)]) hnodup.2]
      · simp
      · intro k hk
        simp only [List.map_append, List.mem_append]
        push_neg
        refine ⟨hdisj k (by simp [hk]), ?_⟩
        simp only [List.map_cons, List.map_nil, List.mem_singleton]
        intro hkq
        exact hnodup.1 (hkq ▸ hk)

/-- Claim C7 (amended: the aggregates range over the responses whose processed
result survives the merge's skip test — a present position-correlated type and
a non-empty result list — not over all types): the merged `totalResults` and
`count` are the sums, and `queryTimeTaken` the maximum, over those surviving
per-type results, and (when the surviving type keys are distinct) the merged
result map is exactly the position-correlated (type, result) association
list. -/
theorem multi_merge_aggregates_over_nonempty_results (responses : List RawResponse)
    (types : List String) (input : SearchInput) :
    (processMultipleSearchResponse responses types input).totalResults =
        ((includedPairs responses types input).map (fun q => q.2.totalResults)).sum ∧
      (processMultipleSearchResponse responses types input).count =
        ((includedPairs responses types input).map (fun q => q.2.count)).sum ∧
      (processMultipleSearchResponse responses types input).queryTimeTaken =
        (if includedPairs responses types input = [] then none
         else
           some ((includedPairs responses types input).foldl
             (fun m q => Nat.max m q.2.queryTimeTaken) 0)) ∧
      (((includedPairs responses types input).map Prod.fst).Nodup →
        (processMultipleSearchResponse responses types input).results =
          includedPairs responses types input) := by
  refine ⟨?_, ?_, ?_, ?_⟩
  · simp only [processMultipleSearchResponse]
    rw [merge_foldl_totalResults]
    simp [includedPairs]
  · simp only [processMultipleSearchResponse]
    rw [merge_foldl_count]
    simp [includedPairs]
  · simp only [processMultipleSearchResponse]
    rw [merge_foldl_queryTimeTaken]
    simp [includedPairs]
  · intro hnodup
    simp only [processMultipleSearchResponse]
    rw [merge_foldl_results]
    show List.foldl (fun m q => insertKeyed m q.1 q.2) []
        (includedPairs responses types input) = includedPairs responses types input
    rw [foldl_insertKeyed_eq_append _ _ hnodup (by simp)]
    simp

/-- Witness for Claim C7: the keying conjunct applied at a concrete batch of
two responses for types `a` and `b`, whose surviving keys are distinct. -/
theorem multi_merge_aggregates_over_nonempty_results_witness :
    (processMultipleSearchResponse
        [⟨some ⟨5, [20]⟩, 7⟩, ⟨some ⟨3, [10]⟩, 4⟩] ["a", "b"] ⟨0, 10⟩).results =
      includedPairs [⟨some ⟨5, [20]⟩, 7⟩, ⟨some ⟨3, [10]⟩, 4⟩] ["a", "b"] ⟨0, 10⟩ :=
  (multi_merge_aggregates_over_nonempty_results
      [⟨some ⟨5, [20]⟩, 7⟩, ⟨some ⟨3, [10]⟩, 4⟩] ["a", "b"] ⟨0, 10⟩).2.2.2
    (by decide)

/-- Counterexample to Claim C7 as stated: in a batch where type `a` reports
`totalResults = 5` with an empty hit list and `queryTimeTaken = 7`, and type
`b` reports `totalResults = 3` with one hit and `queryTimeTaken = 4`, the
merge skips `a` entirely, so the merged `totalResults` is `3`, not the
across-types sum `8`, and the merged `queryTimeTaken` is `some 4`, not the
across-types maximum `7`. -/
theorem multi_merge_sum_counterexample :
    (processMultipleSearchResponse
        [⟨some ⟨5, []⟩, 7⟩, ⟨some ⟨3, [10]⟩, 4⟩] ["a", "b"] ⟨0, 10⟩).totalResults = 3 ∧
      (([⟨some ⟨5, []⟩, 7⟩, ⟨some ⟨3, [10]⟩, 4⟩] : List RawResponse).map
          (fun r => match r.hits with | some hb => hb.total | none => 0)).sum = 8 ∧
      (processMultipleSearchResponse
        [⟨some ⟨5, []⟩, 7⟩, ⟨some ⟨3, [10]⟩, 4⟩] ["a", "b"] ⟨0, 10⟩).queryTimeTaken =
        some 4 ∧
      (([⟨some ⟨5, []⟩, 7⟩, ⟨some ⟨3, [10]⟩, 4⟩] : List RawResponse).map
          RawResponse.took).foldl Nat.max 0 = 7 := by
  refine ⟨by decide, by decide, by decide, by decide⟩

/-! ## Intent cascade classification (`carDekhoIntentBasedSearch`)

JS source:
```
let searchType = null;
if (brandHits) {
    if (brandHits === 1) searchType = 'brand-single'; else searchType = 'brand-multi';
} else if (modelHits) { ... 'model-single' / 'model-multi' ... }
else if (variantHits) { ... 'variant-single' / 'variant-multi' ... }
if (!searchType) return this.searchWithoutIntent(...);
```
The hit counts are non-negative integers, truthy exactly when nonzero; the
null `searchType` routes to the generic intent-free composition
(`fallback`). -/

inductive IntentSearchType where
  | fallback
  | brandSingle
  | brandMulti
  | modelSingle
  | modelMulti
  | variantSingle
  | variantMulti
deriving DecidableEq, Repr

def classifyIntent (brandHits modelHits variantHits : Nat) : IntentSearchType :=
  if brandHits ≠ 0 then
    if brandHits = 1 then .brandSingle else .brandMulti
  else if modelHits ≠ 0 then
    if modelHits = 1 then .modelSingle else .modelMulti
  else if variantHits ≠ 0 then
    if variantHits = 1 then .variantSingle else .variantMulti
  else .fallback

/-- Claim C6: the intent cascade classification is a total function of the
three probe hit counts producing exactly one of the seven outcomes: the
brand, model and variant probes are inspected in the code's precedence order,
a hit count of exactly 1 at the deciding probe yields its single state, a
count above 1 its multi state, and zero hits across all three probes yields
the generic intent-free fallback. -/
theorem intent_classification_total (b m v : Nat) :
    (∃! s : IntentSearchType, classifyIntent b m v = s) ∧
    (classifyIntent b m v = .fallback ↔ b = 0 ∧ m = 0 ∧ v = 0) ∧
    (b = 1 → classifyIntent b m v = .brandSingle) ∧
    (1 < b → classifyIntent b m v = .brandMulti) ∧
    (b = 0 → m = 1 → classifyIntent b m v = .modelSingle) ∧
    (b = 0 → 1 < m → classifyIntent b m v = .modelMulti) ∧
    (b = 0 → m = 0 → v = 1 → classifyIntent b m v = .variantSingle) ∧
    (b = 0 → m = 0 → 1 < v → classifyIntent b m v = .variantMulti) := by
  refine ⟨⟨classifyIntent b m v, rfl, fun s hs => hs.symm⟩, ?_, ?_, ?_, ?_, ?_, ?_, ?_⟩
  · constructor
    · intro h
      simp only [classifyIntent] at h
      split_ifs at h
      all_goals simp_all
    · rintro ⟨hb, hm, hv⟩
      simp [classifyIntent, hb, hm, hv]
  · intro hb
    simp [classifyIntent, hb]
  · intro hb
    have hb0 : b ≠ 0 := by omega
    have hb1 : b ≠ 1 := by omega
    simp [classifyIntent, hb0, hb1]
  · intro hb hm
    simp [classifyIntent, hb, hm]
  · intro hb hm
    have hm0 : m ≠ 0 := by omega
    have hm1 : m ≠ 1 := by omega
    simp [classifyIntent, hb, hm0, hm1]
  · intro hb hm hv
    simp [classifyIntent, hb, hm, hv]
  · intro hb hm hv
    have hv0 : v ≠ 0 := by omega
    have hv1 : v ≠ 1 := by omega
    simp [classifyIntent, hb, hm, hv0, hv1]

/-- Witness for Claim C6: the classification evaluated through the theorem at
hit counts (0, 2, 1), where the model probe decides with the multi state. -/
theorem intent_classification_total_witness :
    classifyIntent 0 2 1 = IntentSearchType.modelMulti :=
  (intent_classification_total 0 2 1).2.2.2.2.2.1 rfl (by decide)

/-! ## Section composition (`composeSections`)

JS source:
```
let totalResults = 0;
const results = [];
_.forEach(responses, (response) => {
    if (response) {
        results.push(response);
        totalResults += _.get(response, 'totalResults', 0);
    }
});
return {
    results: _.filter(results, result => result.results && result.results.length > 0),
    totalResults
};
```
A section carries an optional `totalResults` (`_.get` default 0) and an
optional result list (`result.results &&` guards an absent field); the
name/title/resultType tags attached by `buildSection` are not read here and
are elided.  A null/undefined section slot is an absent `Option`. -/

structure SectionR where
  totalResults : Option Nat
  results : Option (List ℚ)
deriving DecidableEq, Repr

/-- `result.results && result.results.length > 0`. -/
def sectionHasResults (s : SectionR) : Bool :=
  match s.results with
  | some (_ :: _) => true
  | _ => false

structure ComposedSections where
  results : List SectionR
  totalResults : Nat
deriving DecidableEq, Repr

def composeSections (sections : List (Option SectionR)) : ComposedSections :=
  let present := sections.filterMap id
  { results := present.filter sectionHasResults
    totalResults := (present.map (fun s => s.totalResults.getD 0)).sum }

/-- Claim C10: `composeSections` drops every section whose result list is
empty from the returned section list, yet sums `totalResults` over all
non-null sections including the dropped ones — so the sum over the returned
sections never exceeds the returned `totalResults`, and on a concrete input
(a section with `totalResults = 5` and no results next to one with
`totalResults = 3` and one result) the returned `totalResults` 8 strictly
exceeds the sum 3 over the sections present in the returned list. -/
theorem composeSections_sums_include_dropped_sections :
    (∀ sections : List (Option SectionR),
      (composeSections sections).results =
          (sections.filterMap id).filter sectionHasResults ∧
        (composeSections sections).totalResults =
          ((sections.filterMap id).map (fun s => s.totalResults.getD 0)).sum ∧
        ((composeSections sections).results.map (fun s => s.totalResults.getD 0)).sum ≤
          (composeSections sections).totalResults) ∧
    (composeSections [some ⟨some 5, some []⟩, some ⟨some 3, some [10]⟩]).totalResults = 8 ∧
    ((composeSections [some ⟨some 5, some []⟩, some ⟨some 3, some [10]⟩]).results.map
        (fun s => s.totalResults.getD 0)).sum = 3 := by
  refine ⟨fun sections => ⟨rfl, rfl, ?_⟩, by decide, by decide⟩
  simp only [composeSections]
  exact List.Sublist.sum_le_sum
    (List.Sublist.map _ (List.filter_sublist _)) (fun x _ => Nat.zero_le x)

/-! ## Query compiler: field clauses (`buildFieldQuery`), full-text clauses
(`buildTypeQuery`), filters (`filterQueries`) and facets (`facetQueries`)

Backend query documents are embedded as an inductive `Query`: `term`/`terms`,
`range` (`gte`/`lt`), `humane_query` / `multi_humane_query`, the
`bool.should` + `minimum_should_match: 1` combiner, `bool.must_not.exists`
(missing) and `bool.must.exists` shapes, the `nested` envelope and the
`constant_score` boost envelope.  Request filter values are embedded as an
inductive `FilterValue` covering scalars, arrays and the
`{value|values|range|ranges, type}` wrapper. -/

structure RangePair where
  lo : ℚ
  hi : ℚ
deriving DecidableEq, Repr

structure MultiFieldEntry where
  field : String
  boost : Option ℚ
  vernacularOnly : Bool
  keyword : Bool
  path : Option String
  noFuzzy : Bool
deriving DecidableEq, Repr

inductive FilterValue where
  | str (s : String)
  | arr (ss : List String)
  | boolV (b : Bool)
  | rangeV (r : RangePair)
  | rangesV (rs : List RangePair)
  | wrap (wtype : Option String) (value : Option String) (values : Option (List String))
      (range : Option RangePair) (ranges : Option (List RangePair))
deriving DecidableEq, Repr

inductive Query where
  | humane (field : String) (queryText : String) (boost : Option ℚ)
      (vernacularOnly : Bool) (keyword : Bool) (noFuzzy : Bool)
      (intentFields : List String) (instanceName : String)
  | multiHumane (queryText : String) (intentFields : List String) (instanceName : String)
      (fields : List MultiFieldEntry)
  | term (field : String) (value : FilterValue)
  | terms (field : String) (values : List String)
  | rangeQ (field : String) (gte : ℚ) (lt : ℚ)
  | existsQ (field : String)
  | missingQ (field : String)
  | boolShould (queries : List Query)
  | nested (path : String) (query : Query)
  | constantScore (query : Query) (boost : ℚ)

/-- `query.humane_query || query.multi_humane_query`: a ranking-aware clause
that `constantScoreQuery` leaves unboosted. -/
def Query.isHumaneLike : Query → Bool
  | .humane _ _ _ _ _ _ _ _ => true
  | .multiHumane _ _ _ _ => true
  | _ => false

/-- `multi_humane_query` at the top level. -/
def Query.isMultiField : Query → Bool
  | .multiHumane _ _ _ _ => true
  | _ => false

def Query.isBoolShould : Query → Bool
  | .boolShould _ => true
  | _ => false

/-- The merged field configuration handed to `buildFieldQuery` (for query
fields `filter` is unset; for filter/facet clauses the callers force
`filter: true` and set `termQuery`/`rangeQuery`).  `supportsRangeQuery` is
carried by the facet call site but never read by `buildFieldQuery`. -/
structure FieldConfig where
  field : String
  filter : Bool := false
  termQuery : Bool := false
  rangeQuery : Bool := false
  includeMissing : Bool := false
  nestedPath : Option String := none
  weight : Option ℚ := none
  vernacularOnly : Bool := false
  keyword : Bool := false
  noFuzzy : Bool := false
  supportsRangeQuery : Bool := false
deriving DecidableEq, Repr

/-- `boolShouldQueries`: null for no queries, the query itself for one,
otherwise a `bool.should` with `minimum_should_match: 1`. -/
def boolShouldQueries (queryArray : List Query) : Option Query :=
  match queryArray with
  | [] => none
  | [q] => some q
  | qs => some (.boolShould qs)

/-- `constantScoreQuery`: filters and ranking-aware clauses pass through;
otherwise a non-unit weight wraps the clause in a boost envelope. -/
def constantScoreQuery (fieldConfig : FieldConfig) (query : Query) : Query :=
  if fieldConfig.filter ∨ query.isHumaneLike then query
  else
    let boost := fieldConfig.weight.getD 1
    if boost = 1 then query else .constantScore query boost

/-- `wrapQuery`: nested-document envelope first (when `nestedPath` is set),
then the boost envelope. -/
def wrapQuery (fieldConfig : FieldConfig) (query : Query) : Query :=
  constantScoreQuery fieldConfig
    (match fieldConfig.nestedPath with
     | some path => .nested path query
     | none => query)

/-- `termQuery`: `terms` for an array value, `term` otherwise. -/
def termQueryOf (fieldConfig : FieldConfig) (text : FilterValue) : Query :=
  match text with
  | .arr ss => .terms fieldConfig.field ss
  | v => .term fieldConfig.field v

/-- The query text a value contributes to a `humane_query` (the free-text call
sites always pass a string). -/
def FilterValue.asText : FilterValue → String
  | .str s => s
  | _ => ""

/-- The `from`/`to` pairs of a range-shaped value (`buildFieldQuery` wraps a
single pair into an array; the range call sites always pass range values). -/
def FilterValue.asRangeList : FilterValue → List RangePair
  | .rangesV rs => rs
  | .rangeV r => [r]
  | _ => []

/-- `humaneQuery(fieldConfig, text, intentFields)`. -/
def humaneQueryOf (fieldConfig : FieldConfig) (text : String) (intentFields : List String)
    (instanceName : String) : Query :=
  .humane fieldConfig.field text fieldConfig.weight fieldConfig.vernacularOnly
    fieldConfig.keyword fieldConfig.noFuzzy intentFields instanceName

/-- `buildFieldQuery(fieldConfig, valueOrArrayOfValue, queries, intentFields)`:
range filters produce one range clause per `{from,to}` pair OR'd together;
term filters produce a term/terms clause (`__not_empty__` produces an exists
clause); everything else produces a free-text humane clause.  The clause is
wrapped (nested, boost), and for term/range filters with `includeMissing` and
a non-sentinel value it is OR'd with a wrapped "field does not exist" clause
(the OR list has two entries, so `boolShouldQueries` is always `some`). -/
def buildFieldQuery (fieldConfig : FieldConfig) (valueOrArrayOfValue : FilterValue)
    (intentFields : List String) (instanceName : String) : Option Query :=
  let base : Option Query :=
    if fieldConfig.filter ∧ fieldConfig.rangeQuery then
      boolShouldQueries (valueOrArrayOfValue.asRangeList.map
        (fun r => Query.rangeQ fieldConfig.field r.lo r.hi))
    else if fieldConfig.filter ∧ fieldConfig.termQuery then
      some
        (if valueOrArrayOfValue = .str "__not_empty__" then Query.existsQ fieldConfig.field
         else termQueryOf fieldConfig valueOrArrayOfValue)
    else some (humaneQueryOf fieldConfig valueOrArrayOfValue.asText intentFields instanceName)
  match base with
  | none => none
  | some q =>
      let wrapped := wrapQuery fieldConfig q
      if fieldConfig.filter ∧ (fieldConfig.termQuery ∨ fieldConfig.rangeQuery) ∧
          fieldConfig.includeMissing ∧ valueOrArrayOfValue ≠ .str "__not_empty__" then
        some ((boolShouldQueries
          [wrapped, wrapQuery fieldConfig (Query.missingQ fieldConfig.field)]).getD wrapped)
      else some wrapped

/-- One entry of a type's ordered `queryFields`. -/
structure QueryField where
  field : String
  weight : Option ℚ := none
  vernacularOnly : Bool := false
  noFuzzy : Bool := false
  keyword : Bool := false
  nestedPath : Option String := none
deriving DecidableEq, Repr

def queryFieldConfig (f : QueryField) : FieldConfig :=
  { field := f.field, weight := f.weight, vernacularOnly := f.vernacularOnly,
    noFuzzy := f.noFuzzy, keyword := f.keyword, nestedPath := f.nestedPath }

/-- `buildTypeQuery(searchTypeConfig, text, fuzzySearch, intentFields)`:
empty text compiles to no clause; otherwise the query fields not marked
`vernacularOnly` are collected, a single survivor yields one wrapped
`humane_query`, and any other count yields a `multi_humane_query` carrying
the survivors with their weights (the source's `if (!queryFields)` branch is
dead: `_.filter` always returns an array). -/
def buildTypeQuery (queryFields : List QueryField) (text : String) (fuzzySearch : Bool)
    (intentFields : List String) (instanceName : String) : Option Query :=
  if text = "" then none
  else
    match queryFields.filter (fun f => !f.vernacularOnly) with
    | [queryField] =>
        some (wrapQuery (queryFieldConfig queryField)
          (.humane queryField.field text queryField.weight queryField.vernacularOnly
            queryField.keyword (!fuzzySearch || queryField.noFuzzy) intentFields instanceName))
    | active =>
        some (.multiHumane text intentFields instanceName
          (active.map (fun queryField =>
            { field := queryField.field, boost := queryField.weight,
              vernacularOnly := queryField.vernacularOnly, keyword := queryField.keyword,
              path := queryField.nestedPath,
              noFuzzy := !fuzzySearch || queryField.noFuzzy })))

lemma wrapQuery_not_multiField (fieldConfig : FieldConfig) (q : Query)
    (hq : q.isMultiField = false) : (wrapQuery fieldConfig q).isMultiField = false := by
  simp only [wrapQuery, constantScoreQuery]
  cases fieldConfig.nestedPath <;> split_ifs <;> simp_all [Query.isMultiField]

/-- Claim C5: for non-empty query text, exactly one query field surviving the
`vernacularOnly` exclusion compiles to a single wrapped weighted
`humane_query` over that field — never a multi-field clause — while two or
more survivors compile to one `multi_humane_query` listing exactly the
survivors with their configured weights. -/
theorem text_clause_single_vs_multi_field (queryFields : List QueryField) (text : String)
    (fuzzySearch : Bool) (intentFields : List String) (instanceName : String)
    (htext : text ≠ "") :
    ((queryFields.filter (fun f => !f.vernacularOnly)).length = 1 →
      ∃ f, queryFields.filter (fun f => !f.vernacularOnly) = [f] ∧
        buildTypeQuery queryFields text fuzzySearch intentFields instanceName =
          some (wrapQuery (queryFieldConfig f)
            (.humane f.field text f.weight f.vernacularOnly f.keyword
              (!fuzzySearch || f.noFuzzy) intentFields instanceName)) ∧
        (wrapQuery (queryFieldConfig f)
            (.humane f.field text f.weight f.vernacularOnly f.keyword
              (!fuzzySearch || f.noFuzzy) intentFields instanceName)).isMultiField = false) ∧
    (2 ≤ (queryFields.filter (fun f => !f.vernacularOnly)).length →
      buildTypeQuery queryFields text fuzzySearch intentFields instanceName =
        some (.multiHumane text intentFields instanceName
          ((queryFields.filter (fun f => !f.vernacularOnly)).map (fun f =>
            { field := f.field, boost := f.weight, vernacularOnly := f.vernacularOnly,
              keyword := f.keyword, path := f.nestedPath,
              noFuzzy := !fuzzySearch || f.noFuzzy })))) := by
  constructor
  · intro hlen
    rcases hactive : queryFields.filter (fun f => !f.vernacularOnly) with _ | ⟨f, rest⟩
    · rw [hactive] at hlen
      simp at hlen
    · rcases rest with _ | ⟨g, rest2⟩
      · refine ⟨f, hactive, ?_, ?_⟩
        · simp only [buildTypeQuery, if_neg htext, hactive]
        · exact wrapQuery_not_multiField _ _ rfl
      · rw [hactive] at hlen
        simp at hlen
  · intro hlen
    rcases hactive : queryFields.filter (fun f => !f.vernacularOnly) with _ | ⟨f, rest⟩
    · rw [hactive] at hlen
      simp at hlen
    · rcases rest with _ | ⟨g, rest2⟩
      · rw [hactive] at hlen
        simp at hlen
      · simp only [buildTypeQuery, if_neg htext, hactive]

/-- Witness for Claim C5: the multi-field conjunct at three configured fields
of which one is `vernacularOnly`, leaving two survivors. -/
theorem text_clause_single_vs_multi_field_witness :
    buildTypeQuery
        [⟨"value", some 10, false, false, false, none⟩,
          ⟨"unicodeValue", some 9, true, false, false, none⟩,
          ⟨"alias", some 1, false, false, false, none⟩] "swift" true [] "carDekho" =
      some (.multiHumane "swift" [] "carDekho"
        [⟨"value", some 10, false, false, none, false⟩,
          ⟨"alias", some 1, false, false, none, false⟩]) :=
  (text_clause_single_vs_multi_field
      [⟨"value", some 10, false, false, false, none⟩,
        ⟨"unicodeValue", some 9, true, false, false, none⟩,
        ⟨"alias", some 1, false, false, false, none⟩] "swift" true [] "carDekho"
      (by decide)).2 (by decide)

lemma boolShouldQueries_ne_none (l : List Query) (hl : l ≠ []) :
    ∃ q, boolShouldQueries l = some q := by
  match l with
  | [] => exact absurd rfl hl
  | [q] => exact ⟨q, rfl⟩
  | a :: b :: t => exact ⟨.boolShould (a :: b :: t), rfl⟩

/-- The range-filter clause before wrapping: the `{from,to}` range clauses of
the value OR'd by `boolShouldQueries` (defined for a non-empty range list;
the default is never reached there). -/
def rangeBaseQuery (field : String) (v : FilterValue) : Query :=
  (boolShouldQueries (v.asRangeList.map (fun r => Query.rangeQ field r.lo r.hi))).getD
    (Query.boolShould [])

/-- Counterexample to Claim C8 as stated: a free-text FilterConfig (neither
`termQuery` nor `rangeQuery`) with `includeMissing = true` and the supplied
value `"x"` emits a bare `humane_query` clause, not the claimed disjunction of
the value-match clause with a "field does not exist" clause. -/
theorem include_missing_free_text_counterexample :
    buildFieldQuery { field := "name", filter := true, includeMissing := true }
        (.str "x") [] "inst" =
      some (.humane "name" "x" none false false false [] "inst") ∧
    (buildFieldQuery { field := "name", filter := true, includeMissing := true }
        (.str "x") [] "inst").map Query.isBoolShould = some false :=
  ⟨rfl, rfl⟩

/-- Claim C8 (amended: the field-absent disjunct is added only for
term-equality and range filters): a term or range filter with
`includeMissing = true` and a non-sentinel supplied value emits the
disjunction of the wrapped value-match clause and a wrapped "field does not
exist" clause; the `__not_empty__` sentinel on a term filter emits only a
wrapped exists clause; and a free-text filter emits only the wrapped
`humane_query`, with no field-absent alternative even when `includeMissing`
is set. -/
theorem include_missing_adds_field_absent_disjunct (fieldConfig : FieldConfig)
    (v : FilterValue) (intentFields : List String) (instanceName : String) :
    (fieldConfig.filter = true → fieldConfig.includeMissing = true →
      fieldConfig.termQuery = true → fieldConfig.rangeQuery = false →
      v ≠ .str "__not_empty__" →
      buildFieldQuery fieldConfig v intentFields instanceName =
        some (.boolShould [wrapQuery fieldConfig (termQueryOf fieldConfig v),
          wrapQuery fieldConfig (.missingQ fieldConfig.field)])) ∧
    (fieldConfig.filter = true → fieldConfig.includeMissing = true →
      fieldConfig.rangeQuery = true → v ≠ .str "__not_empty__" →
      v.asRangeList ≠ [] →
      buildFieldQuery fieldConfig v intentFields instanceName =
        some (.boolShould [wrapQuery fieldConfig (rangeBaseQuery fieldConfig.field v),
          wrapQuery fieldConfig (.missingQ fieldConfig.field)])) ∧
    (fieldConfig.filter = true → fieldConfig.termQuery = true →
      fieldConfig.rangeQuery = false →
      buildFieldQuery fieldConfig (.str "__not_empty__") intentFields instanceName =
        some (wrapQuery fieldConfig (.existsQ fieldConfig.field))) ∧
    (fieldConfig.termQuery = false → fieldConfig.rangeQuery = false →
      buildFieldQuery fieldConfig v intentFields instanceName =
        some (wrapQuery fieldConfig
          (humaneQueryOf fieldConfig v.asText intentFields instanceName))) := by
  refine ⟨?_, ?_, ?_, ?_⟩
  · intro hf hm ht hr hnv
    simp [buildFieldQuery, hf, hm, ht, hr, hnv, boolShouldQueries]
  · intro hf hm hr hnv hne
    obtain ⟨q0, hq0⟩ := boolShouldQueries_ne_none
      (v.asRangeList.map (fun r => Query.rangeQ fieldConfig.field r.lo r.hi))
      (by simpa using hne)
    simp only [buildFieldQuery, hq0]
    simp [hf, hm, hr, hnv]
    unfold rangeBaseQuery
    rw [hq0]
    rfl
  · intro hf ht hr
    simp [buildFieldQuery, hf, ht, hr]
  · intro ht hr
    simp [buildFieldQuery, ht, hr]

/-- The default `hasResults` filter configuration as `filterQueries` merges it
for `buildFieldQuery`: a term filter, here taken with `includeMissing`. -/
def hasResultsFilterCfg : FieldConfig :=
  { field := "hasResults", filter := true, termQuery := true, includeMissing := true }

/-- Witness for Claim C8: the term-filter conjunct at the `hasResults` filter
with a boolean value, yielding (term OR field-absent). -/
theorem include_missing_adds_field_absent_disjunct_witness :
    buildFieldQuery hasResultsFilterCfg (.boolV true) [] "inst" =
      some (.boolShould
        [wrapQuery hasResultsFilterCfg (termQueryOf hasResultsFilterCfg (.boolV true)),
          wrapQuery hasResultsFilterCfg (.missingQ hasResultsFilterCfg.field)]) :=
  (include_missing_adds_field_absent_disjunct hasResultsFilterCfg
      (.boolV true) [] "inst").1 rfl rfl rfl rfl (by decide)

/-! ## Filter clauses (`filterQueries`) and facet post-filter clauses
(`facetQueries`)

`filterQueries` walks the type's filter configurations: `type: 'post'`
entries are skipped, the effective value is the request value else a truthy
`defaultValue`, an absent or `__all__` value contributes nothing, a
structured wrapper is unwrapped (`value`/`values`/`range`/`ranges`, reading
`type` first) and a `type == 'facet'` wrapper is skipped, the optional
`value` transform is applied, and `buildFieldQuery` runs on the merged
configuration `{filter: true, rangeQuery: range, termQuery: !range &&
filterConfig.termQuery}`.  A `lang` clause is appended for `input.lang` and
for detected term languages (via `_.extend({filter: true}, filterConfigs.lang)`,
without the `value` transform).  `facetQueries` acts per facet configuration
only when the request value at the facet key is a truthy, non-`__all__`
object whose unwrapped `type` is `'facet'`.  In `searchQuery` the
`filterQueries` output lands in the main query's `bool.filter` and the
`facetQueries` output in `post_filter`. -/

/-- JS object property access `map[key]` over an association list. -/
def lookupKey {α : Type} : List (String × α) → String → Option α
  | [], _ => none
  | (k', v') :: rest, k => if k' = k then some v' else lookupKey rest k

/-- `_.isObject`: arrays and plain objects, but not strings or booleans. -/
def isObjectFV : FilterValue → Bool
  | .str _ => false
  | .boolV _ => false
  | _ => true

/-- JS truthiness of a filter value (empty string and `false` are falsy;
arrays and objects are truthy). -/
def truthyFV : FilterValue → Bool
  | .str s => !s.isEmpty
  | .boolV b => b
  | _ => true

/-- `!_.isEmpty` on the language input (lodash counts strings and arrays by
length and regards booleans as empty). -/
def nonEmptyFV : FilterValue → Bool
  | .str s => !s.isEmpty
  | .arr ss => !ss.isEmpty
  | .boolV _ => false
  | _ => true

structure Unwrapped where
  ftype : Option String
  value : FilterValue
  range : Bool
deriving DecidableEq, Repr

/-- The wrapper unwrap of `filterQueries`/`facetQueries`: read `type`, then
take the first present of `value`/`values`/`range`/`ranges` (the latter two
setting the range flag); a wrapper with none of them — or a non-wrapper
object such as an array — passes through unchanged. -/
def unwrapFV : FilterValue → Unwrapped
  | .wrap t (some s) _ _ _ => ⟨t, .str s, false⟩
  | .wrap t none (some vs) _ _ => ⟨t, .arr vs, false⟩
  | .wrap t none none (some r) _ => ⟨t, .rangeV r, true⟩
  | .wrap t none none none (some rs) => ⟨t, .rangesV rs, true⟩
  | .wrap t none none none none => ⟨t, .wrap t none none none none, false⟩
  | v => ⟨none, v, false⟩

/-- A `{type: 'facet'}` wrapper value. -/
def isFacetWrap : FilterValue → Bool
  | .wrap t _ _ _ _ => decide (t = some "facet")
  | _ => false

/-- One entry of a type's `filters` map. -/
structure FilterConfigR where
  field : String
  ftype : Option String := none
  termQuery : Bool := false
  defaultValue : Option FilterValue := none
  valueFn : Option (FilterValue → FilterValue) := none
  includeMissing : Bool := false
  nestedPath : Option String := none
  weight : Option ℚ := none
  vernacularOnly : Bool := false
  keyword : Bool := false
  noFuzzy : Bool := false

/-- The per-entry body of the `filterQueries` loop, as a function of the
request value looked up at the entry's key. -/
def filterEntryQueryVal (cfg : FilterConfigR) (lookedUp : Option FilterValue)
    (intentFields : List String) (instanceName : String) : Option Query :=
  if cfg.ftype = some "post" then none
  else
    let filterValue : Option FilterValue :=
      match lookedUp with
      | some fv => some fv
      | none =>
          match cfg.defaultValue with
          | some dv => if truthyFV dv then some dv else none
          | none => none
    match filterValue with
    | none => none
    | some fv =>
        if fv = .str "__all__" then none
        else
          let u := if isObjectFV fv then unwrapFV fv else ⟨none, fv, false⟩
          if u.ftype = some "facet" then none
          else
            let transformed := match cfg.valueFn with
              | some fn => fn u.value
              | none => u.value
            buildFieldQuery
              { field := cfg.field, filter := true, rangeQuery := u.range,
                termQuery := !u.range && cfg.termQuery,
                includeMissing := cfg.includeMissing, nestedPath := cfg.nestedPath,
                weight := cfg.weight, vernacularOnly := cfg.vernacularOnly,
                keyword := cfg.keyword, noFuzzy := cfg.noFuzzy }
              transformed intentFields instanceName

def filterEntryQuery (key : String) (cfg : FilterConfigR)
    (inputFilter : List (String × FilterValue)) (intentFields : List String)
    (instanceName : String) : Option Query :=
  filterEntryQueryVal cfg (lookupKey inputFilter key) intentFields instanceName

/-- `_.extend({filter: true}, filterConfigs.lang)` for the appended language
clauses. -/
def langFieldConfig (filterConfigs : List (String × FilterConfigR)) : FieldConfig :=
  match lookupKey filterConfigs "lang" with
  | some c =>
      { field := c.field, filter := true, termQuery := c.termQuery,
        includeMissing := c.includeMissing, nestedPath := c.nestedPath,
        weight := c.weight, vernacularOnly := c.vernacularOnly, keyword := c.keyword,
        noFuzzy := c.noFuzzy }
  | none => { field := "", filter := true }

/-- The ordered clause list `filterQueries` builds (the source then collapses
zero/one/many clauses to `undefined`/the clause/the array; the clauses land
in the main query's `bool.filter`). -/
def filterQueriesList (filterConfigs : List (String × FilterConfigR))
    (inputFilter : List (String × FilterValue)) (inputLang termLanguages : Option FilterValue)
    (intentFields : List String) (instanceName : String) : List Query :=
  (filterConfigs.filterMap (fun kc =>
    filterEntryQueryVal kc.2 (lookupKey inputFilter kc.1) intentFields instanceName)) ++
  (match inputLang with
   | some lv =>
       if nonEmptyFV lv then
         (buildFieldQuery (langFieldConfig filterConfigs) lv intentFields instanceName).toList
       else []
   | none => []) ++
  (match termLanguages with
   | some tv =>
       if nonEmptyFV tv then
         (buildFieldQuery (langFieldConfig filterConfigs) tv intentFields instanceName).toList
       else []
   | none => [])

/-- A `{key, filter}` entry of a named-filters facet. -/
structure NamedFilter where
  key : String
  filter : Query

structure NamedRange where
  key : String
  lo : ℚ
  hi : ℚ
deriving DecidableEq, Repr

structure FacetConfigR where
  key : String
  ftype : String
  field : String
  nestedPath : Option String := none
  includeMissing : Bool := false
  supportsRangeQuery : Bool := false
  filters : List NamedFilter := []
  ranges : List NamedRange := []

/-- `if (!_.isArray(filterValue)) filterValue = [filterValue]`: the selected
facet keys (compared with `===` against string keys, so non-string singletons
never match). -/
def FilterValue.asStrList : FilterValue → List String
  | .arr ss => ss
  | .str s => [s]
  | _ => []

/-- The per-facet body of the `facetQueries` loop, as a function of the
request value looked up at the facet's key. -/
def facetEntryQueriesVal (fc : FacetConfigR) (lookedUp : Option FilterValue)
    (intentFields : List String) (instanceName : String) : List Query :=
  match lookedUp with
  | none => []
  | some fv0 =>
      if truthyFV fv0 ∧ fv0 ≠ .str "__all__" ∧ isObjectFV fv0 = true then
        let u := unwrapFV fv0
        if u.ftype ≠ some "facet" then []
        else if fc.ftype = "field" ∨ fc.ftype = "min-max" then
          (buildFieldQuery
            { field := fc.field, filter := true, termQuery := !u.range,
              rangeQuery := u.range, nestedPath := fc.nestedPath,
              includeMissing := fc.includeMissing,
              supportsRangeQuery := fc.supportsRangeQuery } u.value intentFields
            instanceName).toList
        else if fc.ftype = "filters" then
          (boolShouldQueries (u.value.asStrList.flatMap (fun oneValue =>
            (fc.filters.filter (fun nf => nf.key = oneValue)).map
              NamedFilter.filter))).toList
        else if fc.ftype = "ranges" then
          (boolShouldQueries
            ((u.value.asStrList.flatMap (fun oneValue =>
                (fc.ranges.filter (fun nr => nr.key = oneValue)).map
                  (fun nr => Query.rangeQ fc.field nr.lo nr.hi))) ++
              (if fc.includeMissing then [Query.missingQ fc.field] else []))).toList
        else []
      else []

def facetEntryQueries (fc : FacetConfigR) (inputFilter : List (String × FilterValue))
    (intentFields : List String) (instanceName : String) : List Query :=
  facetEntryQueriesVal fc (lookupKey inputFilter fc.key) intentFields instanceName

/-- The ordered clause list `facetQueries` builds (collapsed the same way as
filter clauses; the clauses land in `post_filter`). -/
def facetQueriesList (facetConfigs : List FacetConfigR)
    (inputFilter : List (String × FilterValue)) (intentFields : List String)
    (instanceName : String) : List Query :=
  facetConfigs.flatMap (fun fc => facetEntryQueries fc inputFilter intentFields instanceName)

/-- The two clause positions `searchQuery` assembles: `filterQueries` into
the main query's `bool.filter`, `facetQueries` into `post_filter`. -/
structure CompiledSearch where
  mainFilter : List Query
  postFilter : List Query

def compileSearchClauses (filterConfigs : List (String × FilterConfigR))
    (facetConfigs : List FacetConfigR) (inputFilter : List (String × FilterValue))
    (inputLang termLanguages : Option FilterValue) (intentFields : List String)
    (instanceName : String) : CompiledSearch :=
  { mainFilter :=
      filterQueriesList filterConfigs inputFilter inputLang termLanguages intentFields
        instanceName
    postFilter := facetQueriesList facetConfigs inputFilter intentFields instanceName }

/-- Replacing (or adding) one key's value in the request filter map. -/
def setFilterValue : List (String × FilterValue) → String → FilterValue →
    List (String × FilterValue)
  | [], k, v => [(k, v)]
  | (k', v') :: rest, k, v =>
      if k' = k then (k, v) :: rest else (k', v') :: setFilterValue rest k v

lemma lookup_setFilterValue (l : List (String × FilterValue)) (k : String) (v : FilterValue)
    (key : String) :
    lookupKey (setFilterValue l k v) key = if k = key then some v else lookupKey l key := by
  induction l with
  | nil => simp [setFilterValue, lookupKey]
  | cons p rest ih =>
      obtain ⟨k', v'⟩ := p
      by_cases hk : k' = k
      · subst hk
        by_cases hkey : k' = key <;> simp [setFilterValue, lookupKey, hkey]
      · have hk2 : ¬(k = k') := fun h => hk h.symm
        by_cases hkey : k' = key
        · subst hkey
          simp [setFilterValue, lookupKey, hk, hk2]
        · simp [setFilterValue, lookupKey, hk, hkey, ih]

lemma unwrapFV_ftype (t : Option String) (a : Option String) (b : Option (List String))
    (c : Option RangePair) (d : Option (List RangePair)) :
    (unwrapFV (.wrap t a b c d)).ftype = t := by
  rcases a with _ | s <;> rcases b with _ | vs <;> rcases c with _ | r <;>
    rcases d with _ | rs <;> rfl

lemma filterEntryVal_facet_none (cfg : FilterConfigR) (intentFields : List String)
    (instanceName : String) (v : FilterValue) (hfacet : isFacetWrap v = true) :
    filterEntryQueryVal cfg (some v) intentFields instanceName = none := by
  rcases v with s | ss | b | r | rs | ⟨t, a, b', c, d⟩ <;> simp [isFacetWrap] at hfacet
  by_cases hpost : cfg.ftype = some "post"
  · simp [filterEntryQueryVal, hpost]
  · simp [filterEntryQueryVal, hpost, isObjectFV, unwrapFV_ftype, hfacet]

lemma filterEntryVal_all_none (cfg : FilterConfigR) (intentFields : List String)
    (instanceName : String) :
    filterEntryQueryVal cfg (some (.str "__all__")) intentFields instanceName = none := by
  by_cases hpost : cfg.ftype = some "post" <;> simp [filterEntryQueryVal, hpost]

lemma facetEntryVal_non_facet_nil (fc : FacetConfigR) (intentFields : List String)
    (instanceName : String) (v : FilterValue) (hfacet : isFacetWrap v = false) :
    facetEntryQueriesVal fc (some v) intentFields instanceName = [] := by
  rcases v with s | ss | b | r | rs | ⟨t, a, b', c, d⟩
  · simp [facetEntryQueriesVal, isObjectFV]
  · simp [facetEntryQueriesVal, truthyFV, isObjectFV, unwrapFV]
  · simp [facetEntryQueriesVal, isObjectFV]
  · simp [facetEntryQueriesVal, truthyFV, isObjectFV, unwrapFV]
  · simp [facetEntryQueriesVal, truthyFV, isObjectFV, unwrapFV]
  · have ht : ¬(t = some "facet") := by simpa [isFacetWrap] using hfacet
    simp [facetEntryQueriesVal, truthyFV, isObjectFV, unwrapFV_ftype, ht]

/-- Claim C4: a request filter value carrying a `type: 'facet'` wrapper
contributes no clause to the compiled main-query filter list — every filter
configuration's entry yields nothing for it, and the whole main filter list
is the same as if the value were the `__all__` no-constraint sentinel — and
the facet (post-filter) side produces clauses only from `type: 'facet'`
wrapper values. -/
theorem facet_selections_only_in_post_filter
    (filterConfigs : List (String × FilterConfigR)) (facetConfigs : List FacetConfigR)
    (inputFilter : List (String × FilterValue)) (inputLang termLanguages : Option FilterValue)
    (intentFields : List String) (instanceName : String) (k : String) (v : FilterValue)
    (hv : lookupKey inputFilter k = some v) (hfacet : isFacetWrap v = true) :
    (∀ cfg : FilterConfigR,
      filterEntryQuery k cfg inputFilter intentFields instanceName = none) ∧
    (compileSearchClauses filterConfigs facetConfigs inputFilter inputLang termLanguages
        intentFields instanceName).mainFilter =
      (compileSearchClauses filterConfigs facetConfigs
        (setFilterValue inputFilter k (.str "__all__")) inputLang termLanguages
        intentFields instanceName).mainFilter ∧
    (∀ fc : FacetConfigR, ∀ v' : FilterValue, lookupKey inputFilter fc.key = some v' →
      isFacetWrap v' = false →
      facetEntryQueries fc inputFilter intentFields instanceName = []) := by
  refine ⟨?_, ?_, ?_⟩
  · intro cfg
    rw [filterEntryQuery, hv]
    exact filterEntryVal_facet_none cfg intentFields instanceName v hfacet
  · simp only [compileSearchClauses, filterQueriesList]
    have hmain :
        List.filterMap (fun kc =>
            filterEntryQueryVal kc.2 (lookupKey inputFilter kc.1) intentFields instanceName)
          filterConfigs =
        List.filterMap (fun kc =>
            filterEntryQueryVal kc.2
              (lookupKey (setFilterValue inputFilter k (.str "__all__")) kc.1)
              intentFields instanceName)
          filterConfigs := by
      apply List.filterMap_congr
      intro kc _
      by_cases hk : kc.1 = k
      · rw [hk, hv, lookup_setFilterValue, if_pos rfl,
          filterEntryVal_facet_none kc.2 intentFields instanceName v hfacet,
          filterEntryVal_all_none]
      · rw [lookup_setFilterValue, if_neg (fun h : k = kc.1 => hk h.symm)]
    rw [hmain]
  · intro fc v' hv' hnotfacet
    rw [facetEntryQueries, hv']
    exact facetEntryVal_non_facet_nil fc intentFields instanceName v' hnotfacet

/-- The `color` filter configuration of the witness instance. -/
def colorFilterCfg : FilterConfigR :=
  { field := "color", termQuery := true }

/-- The `color` field-terms facet configuration of the witness instance. -/
def colorFacetCfg : FacetConfigR :=
  { key := "color", ftype := "field", field := "color" }

/-- A facet selection wrapper `{type: 'facet', value: 'red'}`. -/
def facetRedWrap : FilterValue :=
  .wrap (some "facet") (some "red") none none none

/-- Witness for Claim C4: the main-filter invariance conjunct at a concrete
type with one `color` filter and one `color` facet, the request selecting
`{type: 'facet', value: 'red'}` at `color`. -/
theorem facet_selections_only_in_post_filter_witness :
    (compileSearchClauses [("color", colorFilterCfg)] [colorFacetCfg]
        [("color", facetRedWrap)] none none [] "inst").mainFilter =
      (compileSearchClauses [("color", colorFilterCfg)] [colorFacetCfg]
        (setFilterValue [("color", facetRedWrap)] "color" (.str "__all__")) none none
        [] "inst").mainFilter :=
  (facet_selections_only_in_post_filter [("color", colorFilterCfg)] [colorFacetCfg]
      [("color", facetRedWrap)] none none [] "inst" "color" facetRedWrap rfl rfl).2.1

/-! ## Caller boundary error wrapping (`Searcher.errorWrap`)

JS source:
```
.catch((error) => {
    if (error && (error._errorCode === 'VALIDATION_ERROR'
        || error._errorCode === 'INTERNAL_SERVICE_ERROR')) {
        throw error; // rethrow same error
    }
    throw new InternalServiceError('Internal Service Error',
      {details: (error && error.cause) || error, stack: error && error.stack});
});
```
Modelled from the spec: the `ValidationError` and `InternalServiceError`
classes live in the external `humane-node-commons` package, outside this
repository; per the spec's error taxonomy they are modelled as error kinds
identified by the `_errorCode` discriminators that `errorWrap` tests
(`VALIDATION_ERROR`, `INTERNAL_SERVICE_ERROR`), with their payload carried
as `details`.  Any other thrown value is `other`, with an optional `cause`
property.  An operation outcome is an `Except`: `ok` resolves, `error`
rejects. -/

inductive SvcError where
  | validation (details : String)
  | internalService (details : String)
  | other (cause : Option String) (data : String)
deriving DecidableEq, Repr

def SvcError.errorCode : SvcError → Option String
  | .validation _ => some "VALIDATION_ERROR"
  | .internalService _ => some "INTERNAL_SERVICE_ERROR"
  | .other _ _ => none

/-- `(error && error.cause) || error`: the preserved diagnostic payload. -/
def SvcError.causeOrSelf : SvcError → String
  | .validation d => d
  | .internalService d => d
  | .other (some c) _ => c
  | .other none data => data

def errorWrap {α : Type} (outcome : Except SvcError α) : Except SvcError α :=
  match outcome with
  | .ok a => .ok a
  | .error e =>
      if e.errorCode = some "VALIDATION_ERROR" ∨
          e.errorCode = some "INTERNAL_SERVICE_ERROR" then
        .error e
      else .error (.internalService e.causeOrSelf)

/-- Claim C9: at the caller boundary a ValidationError raised inside the
operation propagates unchanged, and any other exception surfaces as an
InternalServiceError whose details preserve the original cause (an
InternalServiceError is rethrown as itself; anything else is wrapped with its
`cause` — or the error itself — as the details); successful outcomes pass
through untouched. -/
theorem errorWrap_propagation {α : Type} (outcome : Except SvcError α) :
    (∀ d : String, outcome = .error (.validation d) → errorWrap outcome = outcome) ∧
    (∀ e : SvcError, outcome = .error e → (∀ d : String, e ≠ .validation d) →
      errorWrap outcome = .error (.internalService e.causeOrSelf)) ∧
    (∀ a : α, outcome = .ok a → errorWrap outcome = outcome) := by
  refine ⟨?_, ?_, ?_⟩
  · intro d houtcome
    subst houtcome
    rfl
  · intro e houtcome hnotval
    subst houtcome
    match e with
    | .validation d => exact absurd rfl (hnotval d)
    | .internalService d => rfl
    | .other (some c) data => rfl
    | .other none data => rfl
  · intro a houtcome
    subst houtcome
    rfl

/-- Witness for Claim C9: a plain failure with a `cause` property surfaces as
an InternalServiceError carrying that cause, and a ValidationError outcome
passes through unchanged. -/
theorem errorWrap_propagation_witness :
    errorWrap (.error (.other (some "socket hang up") "es failure") : Except SvcError Nat) =
        .error (.internalService "socket hang up") ∧
      errorWrap (.error (.validation "NO_INPUT") : Except SvcError Nat) =
        .error (.validation "NO_INPUT") :=
  ⟨(errorWrap_propagation (.error (.other (some "socket hang up") "es failure"))).2.1
      (.other (some "socket hang up") "es failure") rfl
      (by intro d hcon; simp at hcon),
    (errorWrap_propagation (.error (.validation "NO_INPUT"))).1 "NO_INPUT" rfl⟩

end HumaneSearcher
